import Mathlib

/-!
Shallow embedding of the documentation view-model derivation layer of
cryptoalgebra/solidity-docgen (file `src/accessors.ts` and the boundary helper
`h`). Declaration nodes of the solidity AST are modelled as a tagged union
`Docgen.Node`; each accessor of the registry is translated as a function on
`Node`, with JavaScript `undefined` rendered as `Option.none` and the string
truthiness tests of the source made explicit.
-/

namespace Docgen

/-- Embeds `typeDescriptions` of a solidity-ast node: `typeString` is
`string | null | undefined` at runtime, hence an `Option`. -/
structure TypeDescriptions where
  typeString : Option String
deriving DecidableEq

/-- Embeds the solidity-ast `TypeName` union as seen by `accessors.ts`: the code
distinguishes only `ElementaryTypeName` (whose bare `name` is used) from every
other variant (whose `typeDescriptions.typeString` is used). -/
inductive TypeName where
  | elementaryTypeName (name : String) (typeDescriptions : TypeDescriptions)
  | otherTypeName (typeDescriptions : TypeDescriptions)
deriving DecidableEq

/-- Projection of the `typeDescriptions` field common to all `TypeName` variants. -/
def TypeName.typeDescriptions : TypeName → TypeDescriptions
  | .elementaryTypeName _ td => td
  | .otherTypeName td => td

/-- Modelled from the spec: one `@param` (or `@return`) entry of a NatSpec
Record, a tag name together with its description (`src/utils/natspec.ts` is not
among the sources, so the record shape is taken from §3 of the spec and from its
use in `getParams`). -/
structure NatSpecParam where
  name : String
  description : String
deriving DecidableEq

/-- Modelled from the spec: the NatSpec Record — optional summary and detail,
parameter descriptions, return descriptions and custom tags. An absent
`params` array and an empty one are indistinguishable through `find`, so both
are the empty list here. -/
structure NatSpec where
  notice : Option String
  dev : Option String
  params : List NatSpecParam
  returns : List NatSpecParam
  custom : List (String × String)
deriving DecidableEq

/-- Embeds solidity-ast `VariableDeclaration` (the fields `accessors.ts` reads).
The attached doc comment is carried already parsed, see `parseNatspec`. -/
structure VariableDeclaration where
  name : String
  typeDescriptions : TypeDescriptions
  typeName : Option TypeName
  stateVariable : Bool
  visibility : String
  mutability : String
  documentation : NatSpec
deriving DecidableEq

/-- Embeds solidity-ast `ParameterList`. -/
structure ParameterList where
  parameters : List VariableDeclaration
deriving DecidableEq

/-- Embeds the `modifierName` identifier of a modifier invocation. -/
structure Identifier where
  name : String
deriving DecidableEq

/-- Embeds solidity-ast `ModifierInvocation` (only `modifierName.name` is read). -/
structure ModifierInvocation where
  modifierName : Identifier
deriving DecidableEq

/-- Data of a `ContractDefinition` node apart from its member list. -/
structure ContractData where
  name : String
  documentation : NatSpec
deriving DecidableEq

/-- Data of a `FunctionDefinition` node apart from its body. -/
structure FunctionData where
  name : String
  kind : String
  visibility : String
  stateMutability : String
  virtual : Bool
  modifiers : List ModifierInvocation
  parameters : ParameterList
  returnParameters : ParameterList
  documentation : NatSpec
deriving DecidableEq

/-- Data of an `EventDefinition` node. -/
structure EventData where
  name : String
  parameters : ParameterList
  documentation : NatSpec
deriving DecidableEq

/-- Data of an `ErrorDefinition` node. -/
structure ErrorData where
  name : String
  parameters : ParameterList
  documentation : NatSpec
deriving DecidableEq

/-- Data of a `ModifierDefinition` node apart from its body. -/
structure ModifierData where
  name : String
  parameters : ParameterList
  documentation : NatSpec
deriving DecidableEq

/-- Embeds the declaration-node union (`DocItemWithContext`): a tagged union over
`ContractDefinition`, `FunctionDefinition`, `EventDefinition`, `ErrorDefinition`,
`ModifierDefinition` and `VariableDeclaration`, with the recursive child-node
lists (a contract's members, a function or modifier body) kept explicit so that
subtree searches (`findAll`) can be expressed. -/
inductive Node where
  | contractDefinition (c : ContractData) (nodes : List Node)
  | functionDefinition (f : FunctionData) (body : List Node)
  | eventDefinition (e : EventData)
  | errorDefinition (e : ErrorData)
  | modifierDefinition (m : ModifierData) (body : List Node)
  | variableDeclaration (v : VariableDeclaration)

/-- The `nodeType` discriminant string of a node. -/
def Node.nodeType : Node → String
  | .contractDefinition _ _ => "ContractDefinition"
  | .functionDefinition _ _ => "FunctionDefinition"
  | .eventDefinition _ => "EventDefinition"
  | .errorDefinition _ => "ErrorDefinition"
  | .modifierDefinition _ _ => "ModifierDefinition"
  | .variableDeclaration _ => "VariableDeclaration"

/-- The raw `name` field of a node (`item.name` in the source). -/
def Node.declaredName : Node → String
  | .contractDefinition c _ => c.name
  | .functionDefinition f _ => f.name
  | .eventDefinition e => e.name
  | .errorDefinition e => e.name
  | .modifierDefinition m _ => m.name
  | .variableDeclaration v => v.name

/-- The `nodes` member list (present on `ContractDefinition` only; empty elsewhere). -/
def Node.nodes : Node → List Node
  | .contractDefinition _ ns => ns
  | _ => []

/-- The `visibility` field as read off `FunctionDefinition` and
`VariableDeclaration` elements of `findAll` results. -/
def Node.visibilityField : Node → String
  | .functionDefinition f _ => f.visibility
  | .variableDeclaration v => v.visibility
  | _ => ""

/-- Narrows a node to its `VariableDeclaration` payload (the typed counterpart of
the `isNodeType('VariableDeclaration')` type guard). -/
def Node.asVariable : Node → Option VariableDeclaration
  | .variableDeclaration v => some v
  | _ => none

/-- The parsed doc comment attached to a node. -/
def Node.docRecord : Node → NatSpec
  | .contractDefinition c _ => c.documentation
  | .functionDefinition f _ => f.documentation
  | .eventDefinition e => e.documentation
  | .errorDefinition e => e.documentation
  | .modifierDefinition m _ => m.documentation
  | .variableDeclaration v => v.documentation

/-- Modelled from the spec: `parseNatspec` (in `src/utils/natspec.ts`, which is
not among the sources) computes the NatSpec Record on demand from the node's
attached doc comment; nodes here carry that record already parsed, and
`parseNatspec` reads it off. -/
def parseNatspec (item : Node) : NatSpec := item.docRecord

mutual
/-- Embeds `findAll` of `solidity-ast/utils` (an external collaborator, described
by the spec as the Descendant Collector): the preorder list of all nodes of the
requested `nodeType` in the subtree, the root included when it matches. -/
def findAll (tag : String) : Node → List Node
  | .contractDefinition c ns =>
      (if tag == "ContractDefinition" then [Node.contractDefinition c ns] else [])
        ++ findAllList tag ns
  | .functionDefinition f body =>
      (if tag == "FunctionDefinition" then [Node.functionDefinition f body] else [])
        ++ findAllList tag body
  | .eventDefinition e => if tag == "EventDefinition" then [Node.eventDefinition e] else []
  | .errorDefinition e => if tag == "ErrorDefinition" then [Node.errorDefinition e] else []
  | .modifierDefinition m body =>
      (if tag == "ModifierDefinition" then [Node.modifierDefinition m body] else [])
        ++ findAllList tag body
  | .variableDeclaration v => if tag == "VariableDeclaration" then [Node.variableDeclaration v] else []

/-- The list version of `findAll`, concatenating over the children in source order. -/
def findAllList (tag : String) : List Node → List Node
  | [] => []
  | n :: ns => findAll tag n ++ findAllList tag ns
end

/-- Models the JavaScript truthiness test on a string (`s ? s : undefined`):
the empty string is falsy. -/
def presentString (s : String) : Option String :=
  if s = "" then none else some s

/-- Character-list comparison behind the boundary matches of `notTest`: does the
second list begin the first? -/
def charsStart : List Char → List Char → Bool
  | _, [] => true
  | [], _ :: _ => false
  | c :: cs, p :: ps => c == p && charsStart cs ps

/-- Models JavaScript `String.prototype.startsWith` (case-sensitive match at the
start boundary). -/
def strStarts (s p : String) : Bool := charsStart s.data p.data

/-- Models JavaScript `String.prototype.endsWith` (case-sensitive match at the
end boundary). -/
def strEnds (s p : String) : Bool := charsStart s.data.reverse p.data.reverse

/-- Embeds the `Param` record of `accessors.ts` (`{ name, type, natspec? }`);
`type` is `p.typeDescriptions.typeString!`, whose runtime value may still be
missing, hence an `Option`. -/
structure Param where
  name : String
  type : Option String
  natspec : Option String
deriving DecidableEq

/-- Embeds `getParams`: maps each formal parameter to its view, joining the
NatSpec parameter descriptions by exact name equality through `find`. -/
def getParams (params : ParameterList) (natspec : NatSpec) : List Param :=
  params.parameters.map fun p =>
    { name := p.name
      type := p.typeDescriptions.typeString
      natspec := (natspec.params.find? (fun q => p.name == q.name)).map NatSpecParam.description }

/-- Strips a trailing `Definition` or `Declaration`, the first regex of the
`type` accessor. -/
def stripDefSuffix (s : String) : String :=
  if s.endsWith "Definition" then s.dropRight 10
  else if s.endsWith "Declaration" then s.dropRight 11
  else s

/-- Walks the character list of the second regex of the `type` accessor
(`(\w)([A-Z])` replaced by the pair with a space between, resuming after each
match, as a global JavaScript regex does). -/
def spaceCapsAux : List Char → List Char
  | [] => []
  | [c] => [c]
  | c1 :: c2 :: rest =>
      if (c1.isAlphanum || c1 = '_') && c2.isUpper then
        c1 :: ' ' :: c2 :: spaceCapsAux rest
      else
        c1 :: spaceCapsAux (c2 :: rest)

/-- Inserts a space between a word character and a following capital. -/
def spaceCaps (s : String) : String := String.mk (spaceCapsAux s.data)

/-- The `typeString` reached by `a.typeName?.typeDescriptions.typeString` for a
formal parameter `a` of the `signature` accessor. -/
def sigTypeOf (a : VariableDeclaration) : Option String :=
  (a.typeName.map TypeName.typeDescriptions).bind TypeDescriptions.typeString

/-- The string the parameter contributes to the joined signature: JavaScript
`Array.prototype.join` renders a missing element as the empty string. -/
def sigTypeString (a : VariableDeclaration) : String :=
  (sigTypeOf a).getD ""

namespace accessors

/-- Embeds the `type` accessor: the `nodeType` discriminant with a trailing
`Definition`/`Declaration` stripped and a space inserted before internal capitals. -/
def type (item : Node) : String :=
  spaceCaps (stripDefSuffix item.nodeType)

/-- Embeds the `natspec` accessor. -/
def natspec (item : Node) : NatSpec := parseNatspec item

/-- Embeds the `name` accessor: on a `FunctionDefinition` of kind `'function'`
the declared name, on other kinds the kind identifier; the declared name on
every other variant. -/
def name (item : Node) : String :=
  match item with
  | .functionDefinition f _ => if f.kind == "function" then f.name else f.kind
  | _ => item.declaredName

/-- Embeds the `visibility` accessor (`item.visibility ? item.visibility : undefined`
on functions and variables, `undefined` elsewhere). -/
def visibility (item : Node) : Option String :=
  match item with
  | .functionDefinition f _ => presentString f.visibility
  | .variableDeclaration v => presentString v.visibility
  | _ => none

/-- Embeds the `typeName` accessor: on a variable, the bare name of an
elementary type, else the resolved `typeString` when truthy, else `undefined`;
`undefined` on every other variant. -/
def typeName (item : Node) : Option String :=
  match item with
  | .variableDeclaration v =>
      match v.typeName with
      | some (.elementaryTypeName nm _) => some nm
      | some (.otherTypeName td) =>
          match td.typeString with
          | some s => if s = "" then none else some s
          | none => none
      | none => none
  | _ => none

/-- Embeds the `stateMutability` accessor, suppressing the defaults
`nonpayable` (functions) and `mutable` (variables). -/
def stateMutability (item : Node) : Option String :=
  match item with
  | .functionDefinition f _ =>
      if f.stateMutability == "nonpayable" then none
      else presentString f.stateMutability
  | .variableDeclaration v =>
      if v.mutability == "mutable" then none
      else presentString v.mutability
  | _ => none

/-- Embeds the `virtual` accessor. -/
def virtual (item : Node) : Option String :=
  match item with
  | .functionDefinition f _ => if f.virtual then some "virtual" else none
  | _ => none

/-- Embeds the `withModifiers` accessor; `item.modifiers` is an array and hence
always truthy, so functions always get the joined (possibly empty) string. -/
def withModifiers (item : Node) : Option String :=
  match item with
  | .functionDefinition f _ =>
      some (String.intercalate ", " (f.modifiers.map (fun x => x.modifierName.name)))
  | _ => none

/-- Embeds the `signature` accessor: for functions and events,
`name(type1,type2,...)` over `a.typeName?.typeDescriptions.typeString`;
`undefined` for contracts and, through the fallthrough of the `switch`, for
every other variant. -/
def signature (item : Node) : Option String :=
  match item with
  | .contractDefinition _ _ => none
  | .functionDefinition f _ =>
      some (accessors.name item ++ "(" ++
        String.intercalate "," (f.parameters.parameters.map sigTypeString) ++ ")")
  | .eventDefinition e =>
      some (accessors.name item ++ "(" ++
        String.intercalate "," (e.parameters.parameters.map sigTypeString) ++ ")")
  | _ => none

/-- Embeds the `params` accessor. -/
def params (item : Node) : Option (List Param) :=
  match item with
  | .functionDefinition f _ => some (getParams f.parameters (parseNatspec item))
  | .eventDefinition e => some (getParams e.parameters (parseNatspec item))
  | _ => none

/-- Embeds the `returns` accessor (the return parameter list joined against the
same NatSpec record). -/
def returns (item : Node) : Option (List Param) :=
  match item with
  | .functionDefinition f _ => some (getParams f.returnParameters (parseNatspec item))
  | _ => none

/-- Embeds the `functions` accessor. -/
def functions (item : Node) : List Node := findAll "FunctionDefinition" item

/-- Embeds the `events` accessor. -/
def events (item : Node) : List Node := findAll "EventDefinition" item

/-- Embeds the `modifiers` accessor. -/
def modifiers (item : Node) : List Node := findAll "ModifierDefinition" item

/-- Embeds the `errors` accessor. -/
def errors (item : Node) : List Node := findAll "ErrorDefinition" item

/-- Embeds the `variables` accessor: on a contract, its direct member nodes
narrowed to variable declarations and filtered to state variables; `undefined`
on every other variant. -/
def «variables» (item : Node) : Option (List VariableDeclaration) :=
  match item with
  | .contractDefinition _ ns =>
      some ((((ns.filter (fun x => x.nodeType == "VariableDeclaration")).filterMap
        Node.asVariable).filter (fun v => v.stateVariable)))
  | _ => none

/-- Embeds the `notTest` accessor. -/
def notTest (item : Node) : Bool :=
  if item.nodeType != "ContractDefinition" then true
  else
    !(strEnds item.declaredName "Test"
      || strStarts item.declaredName "Test"
      || strEnds item.declaredName "Mock"
      || strStarts item.declaredName "Mock")

/-- Embeds the `hasPublicMembers` accessor, with the early returns of the source
rendered as a nested conditional. -/
def hasPublicMembers (item : Node) : Bool :=
  if item.nodeType != "ContractDefinition" then false
  else
    let vars := (((item.nodes.filter (fun x => x.nodeType == "VariableDeclaration")).filterMap
      Node.asVariable).filter (fun v => v.stateVariable)).filter (fun v => v.visibility == "public")
    if vars.length > 0 then true
    else
      let evs := findAll "EventDefinition" item
      if evs.length > 0 then true
      else
        let fns := (findAll "FunctionDefinition" item).filter
          (fun x => x.visibilityField == "public" || x.visibilityField == "external")
        if fns.length > 0 then true else false

/-- Embeds the `publicExternalFunctions` accessor. -/
def publicExternalFunctions (item : Node) : List Node :=
  (findAll "FunctionDefinition" item).filter
    (fun x => x.visibilityField == "public" || x.visibilityField == "external")

/-- Embeds the `publicVariables` accessor. -/
def publicVariables (item : Node) : Option (List VariableDeclaration) :=
  match item with
  | .contractDefinition _ ns =>
      some (((((ns.filter (fun x => x.nodeType == "VariableDeclaration")).filterMap
        Node.asVariable).filter (fun v => v.stateVariable)).filter
          (fun v => v.visibility == "public")))
  | _ => none

end accessors

/-- Values an augmented record can hold: a JavaScript record is heterogeneous,
so the node's own fields and the accessor results are injected into one sum.
An accessor result of `undefined` is still a stored value (`Option.none` inside
the constructor), distinct from a missing key. -/
inductive Value where
  | vString (s : String)
  | vOptString (s : Option String)
  | vBool (b : Bool)
  | vNatSpec (ns : NatSpec)
  | vOptParams (ps : Option (List Param))
  | vNodeList (ns : List Node)
  | vOptVarList (vs : Option (List VariableDeclaration))
  | vParamList (pl : ParameterList)
  | vModifierList (ms : List ModifierInvocation)
  | vOptTypeName (t : Option TypeName)
  | vTypeDesc (td : TypeDescriptions)

/-- Field lookup in an association-list record; a later binding shadows an
earlier one, exactly as a later spread assignment overwrites an earlier key. -/
def recordLookup : List (String × Value) → String → Option Value
  | [], _ => none
  | e :: r, k =>
      match recordLookup r k with
      | some v => some v
      | none => if e.1 = k then some e.2 else none

/-- The node's own enumerable fields, as a record. -/
def Node.ownFields : Node → List (String × Value)
  | .contractDefinition c ns =>
      [("nodeType", .vString "ContractDefinition"), ("name", .vString c.name),
       ("nodes", .vNodeList ns), ("documentation", .vNatSpec c.documentation)]
  | .functionDefinition f body =>
      [("nodeType", .vString "FunctionDefinition"), ("name", .vString f.name),
       ("kind", .vString f.kind), ("visibility", .vString f.visibility),
       ("stateMutability", .vString f.stateMutability), ("virtual", .vBool f.virtual),
       ("modifiers", .vModifierList f.modifiers), ("parameters", .vParamList f.parameters),
       ("returnParameters", .vParamList f.returnParameters),
       ("documentation", .vNatSpec f.documentation), ("body", .vNodeList body)]
  | .eventDefinition e =>
      [("nodeType", .vString "EventDefinition"), ("name", .vString e.name),
       ("parameters", .vParamList e.parameters), ("documentation", .vNatSpec e.documentation)]
  | .errorDefinition e =>
      [("nodeType", .vString "ErrorDefinition"), ("name", .vString e.name),
       ("parameters", .vParamList e.parameters), ("documentation", .vNatSpec e.documentation)]
  | .modifierDefinition m body =>
      [("nodeType", .vString "ModifierDefinition"), ("name", .vString m.name),
       ("parameters", .vParamList m.parameters), ("documentation", .vNatSpec m.documentation),
       ("body", .vNodeList body)]
  | .variableDeclaration v =>
      [("nodeType", .vString "VariableDeclaration"), ("name", .vString v.name),
       ("typeDescriptions", .vTypeDesc v.typeDescriptions), ("typeName", .vOptTypeName v.typeName),
       ("stateVariable", .vBool v.stateVariable), ("visibility", .vString v.visibility),
       ("mutability", .vString v.mutability), ("documentation", .vNatSpec v.documentation)]

/-- Embeds `mapValues(accessors, fn => fn(item))`: the registry with every
accessor applied to the item, keys in registry order. -/
def accessorRecord (item : Node) : List (String × Value) :=
  [("type", .vString (accessors.type item)),
   ("natspec", .vNatSpec (accessors.natspec item)),
   ("name", .vString (accessors.name item)),
   ("visibility", .vOptString (accessors.visibility item)),
   ("typeName", .vOptString (accessors.typeName item)),
   ("stateMutability", .vOptString (accessors.stateMutability item)),
   ("virtual", .vOptString (accessors.virtual item)),
   ("withModifiers", .vOptString (accessors.withModifiers item)),
   ("signature", .vOptString (accessors.signature item)),
   ("params", .vOptParams (accessors.params item)),
   ("returns", .vOptParams (accessors.returns item)),
   ("functions", .vNodeList (accessors.functions item)),
   ("events", .vNodeList (accessors.events item)),
   ("modifiers", .vNodeList (accessors.modifiers item)),
   ("errors", .vNodeList (accessors.errors item)),
   ("variables", .vOptVarList (accessors.«variables» item)),
   ("notTest", .vBool (accessors.notTest item)),
   ("hasPublicMembers", .vBool (accessors.hasPublicMembers item)),
   ("publicExternalFunctions", .vNodeList (accessors.publicExternalFunctions item)),
   ("publicVariables", .vOptVarList (accessors.publicVariables item))]

/-- The keys of the Field Accessor Registry, in registry order. -/
def accessorKeys : List String :=
  ["type", "natspec", "name", "visibility", "typeName", "stateMutability", "virtual",
   "withModifiers", "signature", "params", "returns", "functions", "events", "modifiers",
   "errors", "variables", "notTest", "hasPublicMembers", "publicExternalFunctions",
   "publicVariables"]

/-- Embeds `wrapWithAccessors`: the spread `{...item, ...mapValues(accessors, fn => fn(item))}`,
that is the item's own fields followed by the accessor results, later bindings
taking precedence under `recordLookup`. -/
def wrapWithAccessors (item : Node) : List (String × Value) :=
  item.ownFields ++ accessorRecord item

/-- Clamp applied by `h` to its argument: `typeof hsublevel === 'number' ? Math.max(1, hsublevel) : 1`
(a non-number argument, such as the options object a template passes, counts as 1). -/
def hsubClamp : Option Int → Nat
  | some i => (max 1 i).toNat
  | none => 1

/-- Embeds the heading helper `h`:
`new Array((this.hlevel ?? 1) + hsublevel - 1).fill('#').join('')` after the clamp. -/
def h (hlevel : Option Nat) (hsublevel : Option Int) : String :=
  String.mk (List.replicate (hlevel.getD 1 + hsubClamp hsublevel - 1) '#')

mutual
/-- States the spec's reading of the descendant `variables` collection: every
variable declaration anywhere in the node's subtree, in source order, the
formal parameter and return lists included. -/
def subtreeVariables : Node → List VariableDeclaration
  | .contractDefinition _ ns => subtreeVariablesList ns
  | .functionDefinition f body =>
      f.parameters.parameters ++ f.returnParameters.parameters ++ subtreeVariablesList body
  | .eventDefinition e => e.parameters.parameters
  | .errorDefinition e => e.parameters.parameters
  | .modifierDefinition m body => m.parameters.parameters ++ subtreeVariablesList body
  | .variableDeclaration v => [v]

/-- The list version of `subtreeVariables`. -/
def subtreeVariablesList : List Node → List VariableDeclaration
  | [] => []
  | n :: ns => subtreeVariables n ++ subtreeVariablesList ns
end

/-- States the claim's reading of the `variables` accessor, to be compared with
the source's `accessors.variables`: for every declaration node, the ordered list
of all descendant variable declarations in the subtree, filtered to state-level
ones. -/
def variablesClaim (n : Node) : Option (List VariableDeclaration) :=
  some ((subtreeVariables n).filter (fun v => v.stateVariable))

/-- States the claim's reading of the heading helper, to be compared with the
source's `h`: a string of repeated heading markers whose count is the base
level plus the requested sub-level, with a minimum of 1. -/
def hClaim (hlevel : Option Nat) (hsublevel : Option Int) : String :=
  String.mk (List.replicate (max 1 (hlevel.getD 1 + hsubClamp hsublevel)) '#')

/-- Direct-child state variable declarations of a member-node list, in source
order: the reference recursion the `variables` accessor is proved to compute. -/
def directStateVariables : List Node → List VariableDeclaration
  | [] => []
  | .variableDeclaration v :: rest =>
      if v.stateVariable then v :: directStateVariables rest else directStateVariables rest
  | _ :: rest => directStateVariables rest

/-- The formal parameter list of the two variants the `signature` accessor
models (functions and events); `none` on every other variant. -/
def fnEvParams : Node → Option ParameterList
  | .functionDefinition f _ => some f.parameters
  | .eventDefinition e => some e.parameters
  | _ => none

/-- Resolves every element of a list through an optional-string accessor:
`some` of the list of resolved strings when all are present, `none` otherwise
(the upstream tree guarantees presence for signature building). -/
def resolveAll {α : Type} (f : α → Option String) : List α → Option (List String)
  | [] => some []
  | a :: l =>
      match f a, resolveAll f l with
      | some b, some bs => some (b :: bs)
      | _, _ => none

/-- The empty NatSpec record (an absent doc comment). -/
def emptyNS : NatSpec := ⟨none, none, [], [], []⟩

/-- A formal parameter `to` of elementary type `address`. -/
def addrParam : VariableDeclaration :=
  { name := "to"
    typeDescriptions := ⟨some "address"⟩
    typeName := some (.elementaryTypeName "address" ⟨some "address"⟩)
    stateVariable := false
    visibility := "internal"
    mutability := "mutable"
    documentation := emptyNS }

/-- A formal parameter `amount` of elementary type `uint256`. -/
def uintParam : VariableDeclaration :=
  { name := "amount"
    typeDescriptions := ⟨some "uint256"⟩
    typeName := some (.elementaryTypeName "uint256" ⟨some "uint256"⟩)
    stateVariable := false
    visibility := "internal"
    mutability := "mutable"
    documentation := emptyNS }

/-- A public state variable `totalSupply`. -/
def supplyVar : VariableDeclaration :=
  { name := "totalSupply"
    typeDescriptions := ⟨some "uint256"⟩
    typeName := some (.elementaryTypeName "uint256" ⟨some "uint256"⟩)
    stateVariable := true
    visibility := "public"
    mutability := "mutable"
    documentation := emptyNS }

/-- The payload of a public function `transfer(address,uint256)`. -/
def transferData : FunctionData :=
  { name := "transfer"
    kind := "function"
    visibility := "public"
    stateMutability := "nonpayable"
    virtual := false
    modifiers := []
    parameters := ⟨[addrParam, uintParam]⟩
    returnParameters := ⟨[]⟩
    documentation := emptyNS }

/-- A function node `transfer(address,uint256)`. -/
def transferFn : Node := .functionDefinition transferData []

/-- The payload of a constructor (kind `constructor`, no ordinary name). -/
def ctorData : FunctionData :=
  { name := ""
    kind := "constructor"
    visibility := "public"
    stateMutability := "nonpayable"
    virtual := false
    modifiers := []
    parameters := ⟨[]⟩
    returnParameters := ⟨[]⟩
    documentation := emptyNS }

/-- A constructor node. -/
def ctorFn : Node := .functionDefinition ctorData []

/-- An event node `Transfer()` with no parameters. -/
def transferEvent : Node := .eventDefinition ⟨"Transfer", ⟨[]⟩, emptyNS⟩

/-- A contract named `MockToken`. -/
def mockContract : Node := .contractDefinition ⟨"MockToken", emptyNS⟩ []

/-- A contract named `TokenTest`. -/
def testContract : Node := .contractDefinition ⟨"TokenTest", emptyNS⟩ []

/-- A contract whose only member is a declared event (no variables, no
public or external functions). -/
def eventOnlyContract : Node := .contractDefinition ⟨"Token", emptyNS⟩ [transferEvent]

/-- A contract with a public state variable, a public function and an event. -/
def sampleContract : Node :=
  .contractDefinition ⟨"Token", emptyNS⟩
    [.variableDeclaration supplyVar, transferFn, transferEvent]

/-- A NatSpec record with a description for the tag `amount` only. -/
def transferNS : NatSpec := ⟨none, none, [⟨"amount", "the amount"⟩], [], []⟩

/-- C6: `notTest` is true on every node that is not a contract, and on a
contract it is false exactly when the contract's name starts or ends with
`Test` or starts or ends with `Mock`. -/
theorem notTest_spec (n : Node) :
    (n.nodeType ≠ "ContractDefinition" → accessors.notTest n = true) ∧
    (∀ c ns, n = .contractDefinition c ns →
      (accessors.notTest n = false ↔
        (strStarts c.name "Test" = true ∨ strEnds c.name "Test" = true
          ∨ strStarts c.name "Mock" = true ∨ strEnds c.name "Mock" = true))) := by
  constructor
  · intro hn
    have hb : (n.nodeType != "ContractDefinition") = true := by simpa using hn
    simp [accessors.notTest, hb]
  · rintro c ns rfl
    simp only [accessors.notTest, Node.nodeType, Node.declaredName, bne_self_eq_false,
      Bool.false_eq_true, if_false, Bool.not_eq_false', Bool.or_eq_true]
    tauto

/-- C6 witness: `notTest` is false on contracts named `MockToken` and
`TokenTest`, and true on a plain function node. -/
theorem notTest_spec_witness :
    accessors.notTest mockContract = false ∧ accessors.notTest testContract = false ∧
      accessors.notTest transferFn = true :=
  ⟨((notTest_spec mockContract).2 ⟨"MockToken", emptyNS⟩ [] rfl).mpr (by decide),
   ((notTest_spec testContract).2 ⟨"TokenTest", emptyNS⟩ [] rfl).mpr (by decide),
   (notTest_spec transferFn).1 (by decide)⟩

/-- C9 counterexample: at base level 1 and requested sub-level 1 the helper
produces a single marker, not the two markers the stated count (base level plus
sub-level, minimum 1) would give. -/
theorem h_claim_cex :
    h (some 1) (some 1) = "#" ∧ hClaim (some 1) (some 1) = "##" ∧
      h (some 1) (some 1) ≠ hClaim (some 1) (some 1) :=
  ⟨rfl, rfl, by decide⟩

/-- C9 (amended): the helper produces a string made only of heading markers
whose count is the base level (default 1) plus the requested sub-level first
clamped to a minimum of 1 (a non-numeric sub-level counts as 1), minus one. -/
theorem h_spec (hlevel : Option Nat) (hsublevel : Option Int) :
    (h hlevel hsublevel).length = hlevel.getD 1 + hsubClamp hsublevel - 1 ∧
    (∀ c ∈ (h hlevel hsublevel).data, c = '#') ∧
    1 ≤ hsubClamp hsublevel := by
  refine ⟨?_, ?_, ?_⟩
  · show (List.replicate _ '#').length = _
    rw [List.length_replicate]
  · intro c hc
    have : c ∈ List.replicate (hlevel.getD 1 + hsubClamp hsublevel - 1) '#' := hc
    exact (List.eq_of_mem_replicate this)
  · cases hsublevel with
    | none => simp [hsubClamp]
    | some i =>
        show 1 ≤ (max 1 i).toNat
        omega

/-- C9 witness: at base level 2 and requested sub-level 1 the helper produces
two markers. -/
theorem h_spec_witness : (h (some 2) (some 1)).length = 2 := by
  have := (h_spec (some 2) (some 1)).1
  simpa using this

/-- C10: on every node that is not a contract, `hasPublicMembers` is false,
while `notTest` is true there and the contract-only collection accessors
(`variables`, `publicVariables`) are absent. -/
theorem hasPublicMembers_nonContract (n : Node) (hn : n.nodeType ≠ "ContractDefinition") :
    accessors.hasPublicMembers n = false ∧ accessors.notTest n = true ∧
      accessors.«variables» n = none ∧ accessors.publicVariables n = none := by
  have hb : (n.nodeType != "ContractDefinition") = true := by simpa using hn
  refine ⟨by simp [accessors.hasPublicMembers, hb], by simp [accessors.notTest, hb], ?_, ?_⟩
  · cases n <;> simp_all [accessors.«variables», Node.nodeType]
  · cases n <;> simp_all [accessors.publicVariables, Node.nodeType]

/-- C10 witness: a function node has `hasPublicMembers` false, `notTest` true
and absent `variables` and `publicVariables`. -/
theorem hasPublicMembers_nonContract_witness :
    accessors.hasPublicMembers transferFn = false ∧ accessors.notTest transferFn = true ∧
      accessors.«variables» transferFn = none ∧ accessors.publicVariables transferFn = none :=
  hasPublicMembers_nonContract transferFn (by decide)

/-- C8: each optional accessor is a total function that returns the explicit
absent value on node variants it does not model: `visibility` and
`stateMutability` outside functions and variables, `typeName` outside
variables, `virtual`, `withModifiers` and `returns` outside functions,
`signature` and `params` outside functions and events, `variables` and
`publicVariables` outside contracts. -/
theorem accessors_absent (n : Node) :
    (n.nodeType ≠ "FunctionDefinition" → n.nodeType ≠ "VariableDeclaration" →
      accessors.visibility n = none ∧ accessors.stateMutability n = none) ∧
    (n.nodeType ≠ "VariableDeclaration" → accessors.typeName n = none) ∧
    (n.nodeType ≠ "FunctionDefinition" →
      accessors.virtual n = none ∧ accessors.withModifiers n = none ∧
        accessors.returns n = none) ∧
    (n.nodeType ≠ "FunctionDefinition" → n.nodeType ≠ "EventDefinition" →
      accessors.signature n = none ∧ accessors.params n = none) ∧
    (n.nodeType ≠ "ContractDefinition" →
      accessors.«variables» n = none ∧ accessors.publicVariables n = none) := by
  cases n <;>
    simp_all [accessors.visibility, accessors.stateMutability, accessors.typeName,
      accessors.virtual, accessors.withModifiers, accessors.returns, accessors.signature,
      accessors.params, accessors.«variables», accessors.publicVariables, Node.nodeType]

/-- C8 witness: `visibility` is absent on a contract, `typeName` on a function,
`stateMutability` on an event. -/
theorem accessors_absent_witness :
    accessors.visibility mockContract = none ∧ accessors.typeName transferFn = none ∧
      accessors.stateMutability transferEvent = none :=
  ⟨((accessors_absent mockContract).1 (by decide) (by decide)).1,
   (accessors_absent transferFn).2.1 (by decide),
   ((accessors_absent transferEvent).1 (by decide) (by decide)).2⟩

/-- Narrowing to variable declarations ignores the preceding `nodeType` filter:
the type guard keeps exactly the nodes `asVariable` accepts. -/
theorem filterMap_asVariable_filter (ns : List Node) :
    (ns.filter (fun x => x.nodeType == "VariableDeclaration")).filterMap Node.asVariable
      = ns.filterMap Node.asVariable := by
  induction ns with
  | nil => rfl
  | cons n rest ih =>
      cases n with
      | variableDeclaration v => exact congrArg (List.cons v) ih
      | contractDefinition c ms => exact ih
      | functionDefinition f body => exact ih
      | eventDefinition e => exact ih
      | errorDefinition e => exact ih
      | modifierDefinition m body => exact ih

/-- The member filter chain of the `variables` accessor computes the direct-child
state variables in source order. -/
theorem filter_state_eq_directStateVariables (ns : List Node) :
    ((ns.filter (fun x => x.nodeType == "VariableDeclaration")).filterMap
        Node.asVariable).filter (fun v => v.stateVariable)
      = directStateVariables ns := by
  rw [filterMap_asVariable_filter]
  induction ns with
  | nil => rfl
  | cons n rest ih =>
      cases n with
      | variableDeclaration v =>
          show ((v :: rest.filterMap Node.asVariable).filter (fun v => v.stateVariable))
              = if v.stateVariable = true then v :: directStateVariables rest
                else directStateVariables rest
          rw [List.filter_cons]
          cases hv : v.stateVariable
          · rw [if_neg (by simp [hv]), if_neg (by simp [hv])]
            exact ih
          · rw [if_pos (by simp [hv]), if_pos (by simp [hv])]
            exact congrArg (List.cons v) ih
      | contractDefinition c ms => exact ih
      | functionDefinition f body => exact ih
      | eventDefinition e => exact ih
      | errorDefinition e => exact ih
      | modifierDefinition m body => exact ih

/-- C2 counterexample: on an event node the `variables` accessor is absent,
while the claim's reading (the subtree's variable declarations filtered to
state level, for every declaration node) yields a present empty list there. -/
theorem variables_claim_cex :
    accessors.«variables» transferEvent = none ∧
      variablesClaim transferEvent = some [] ∧
      accessors.«variables» transferEvent ≠ variablesClaim transferEvent :=
  ⟨rfl, rfl, by decide⟩

/-- C2 (amended): on a contract the `variables` accessor returns the contract's
direct member variable declarations filtered to state variables, in source
order; on every other variant it is absent. -/
theorem variables_spec (n : Node) :
    (∀ c ns, n = .contractDefinition c ns →
      accessors.«variables» n = some (directStateVariables ns)) ∧
    (n.nodeType ≠ "ContractDefinition" → accessors.«variables» n = none) := by
  constructor
  · rintro c ns rfl
    simp [accessors.«variables», filter_state_eq_directStateVariables]
  · intro hn
    cases n <;> simp_all [accessors.«variables», Node.nodeType]

/-- C2 witness: the sample contract's `variables` accessor yields exactly its
one state variable, skipping the member function and event. -/
theorem variables_spec_witness :
    accessors.«variables» sampleContract = some [supplyVar] := by
  have hmain := (variables_spec sampleContract).1 ⟨"Token", emptyNS⟩
    [.variableDeclaration supplyVar, transferFn, transferEvent] rfl
  rw [hmain]
  rfl

/-- C7: under the upstream invariant that a function lacks an ordinary name
exactly when its kind is special (`constructor`, `fallback`, `receive`), the
`name` accessor returns the kind identifier when the declared name is empty and
the declared name otherwise; on every other variant it returns the declared
name verbatim. -/
theorem name_spec (n : Node) :
    (∀ f body, n = .functionDefinition f body → (f.name = "" ↔ f.kind ≠ "function") →
      accessors.name n = if f.name = "" then f.kind else f.name) ∧
    (n.nodeType ≠ "FunctionDefinition" → accessors.name n = n.declaredName) := by
  constructor
  · rintro f body rfl hinv
    by_cases hn : f.name = ""
    · have hk : (f.kind == "function") = false := by simpa using hinv.mp hn
      simp [accessors.name, hn, hk]
    · have hk : f.kind = "function" := by
        by_contra hk
        exact hn (hinv.mpr hk)
      simp [accessors.name, hn, hk]
  · intro hn
    cases n <;> simp_all [accessors.name, Node.nodeType, Node.declaredName]

/-- C7 witness: a constructor (kind identifier, empty declared name) is named
`constructor`; an event node keeps its declared name. -/
theorem name_spec_witness :
    accessors.name ctorFn = "constructor" ∧ accessors.name transferEvent = "Transfer" := by
  constructor
  · have hmain := (name_spec ctorFn).1 ctorData [] rfl (by decide)
    simpa using hmain
  · have hmain := (name_spec transferEvent).2 (by decide)
    simpa using hmain

/-- C5: `getParams` produces one view entry per formal parameter, in declaration
order; the entry at each position carries that parameter's name and resolved
type string, its `natspec` field is the description of the first NatSpec entry
whose tag name equals the parameter's name, and it is absent when no NatSpec
entry carries a matching name. -/
theorem getParams_spec (pl : ParameterList) (ns : NatSpec) (i : Nat) (p : VariableDeclaration)
    (hp : pl.parameters[i]? = some p) :
    (getParams pl ns).length = pl.parameters.length ∧
    (getParams pl ns)[i]? = some
      { name := p.name
        type := p.typeDescriptions.typeString
        natspec := (ns.params.find? (fun q => p.name == q.name)).map NatSpecParam.description } ∧
    ((∀ q ∈ ns.params, q.name ≠ p.name) → (getParams pl ns)[i]? = some
      { name := p.name, type := p.typeDescriptions.typeString, natspec := none }) := by
  refine ⟨by simp [getParams], ?_, ?_⟩
  · simp [getParams, List.getElem?_map, hp]
  · intro hq
    have hfind : ns.params.find? (fun q => p.name == q.name) = none := by
      rw [List.find?_eq_none]
      intro q hqmem
      simpa using (hq q hqmem).symm
    simp [getParams, List.getElem?_map, hp, hfind]

/-- C5 witness: two parameters with one matching NatSpec tag — the list keeps
length and order, the unmatched parameter `to` has an absent description and
the matched parameter `amount` carries its description. -/
theorem getParams_spec_witness :
    (getParams ⟨[addrParam, uintParam]⟩ transferNS).length = 2 ∧
      (getParams ⟨[addrParam, uintParam]⟩ transferNS)[0]? =
        some { name := "to", type := some "address", natspec := none } ∧
      (getParams ⟨[addrParam, uintParam]⟩ transferNS)[1]? =
        some { name := "amount", type := some "uint256", natspec := some "the amount" } := by
  have h0 := getParams_spec ⟨[addrParam, uintParam]⟩ transferNS 0 addrParam rfl
  have h1 := getParams_spec ⟨[addrParam, uintParam]⟩ transferNS 1 uintParam rfl
  refine ⟨by simpa using h0.1, ?_, ?_⟩
  · have := h0.2.2 (by decide)
    simpa [addrParam] using this
  · have := h1.2.1
    simpa [uintParam, transferNS] using this

/-- Resolvedness transport: when every element of a list resolves to a present
string, mapping with the default-on-absent accessor recovers exactly those
strings. -/
theorem resolveAll_getD_eq {α : Type} (f : α → Option String) :
    ∀ (l : List α) (ts : List String), resolveAll f l = some ts →
      l.map (fun a => (f a).getD "") = ts := by
  intro l
  induction l with
  | nil =>
      intro ts hts
      cases hts
      rfl
  | cons a l ih =>
      intro ts hts
      have hts' : (match f a, resolveAll f l with
          | some b, some bs => some (b :: bs)
          | _, _ => none) = some ts := hts
      cases hfa : f a with
      | none =>
          rw [hfa] at hts'
          cases hl : resolveAll f l <;> rw [hl] at hts' <;> simp at hts'
      | some b =>
          rw [hfa] at hts'
          cases hl : resolveAll f l with
          | none =>
              rw [hl] at hts'
              simp at hts'
          | some bs =>
              rw [hl] at hts'
              have hts2 : b :: bs = ts := by simpa using hts'
              simp only [List.map_cons]
              rw [hfa, ih bs hl, ← hts2]
              rfl

/-- C4: for functions and events the signature is the accessor name followed by
the parenthesised comma-join of the resolved parameter type strings in
declaration order; the accessor is absent on contracts and on every other
variant. -/
theorem signature_spec (n : Node) :
    (fnEvParams n = none → accessors.signature n = none) ∧
    (∀ pl ts, fnEvParams n = some pl →
      resolveAll sigTypeOf pl.parameters = some ts →
      accessors.signature n =
        some (accessors.name n ++ "(" ++ String.intercalate "," ts ++ ")")) := by
  constructor
  · intro hn
    cases n <;> simp_all [fnEvParams, accessors.signature]
  · intro pl ts hpl hts
    have hmap := resolveAll_getD_eq sigTypeOf pl.parameters ts hts
    cases n with
    | functionDefinition f body =>
        have hpf : f.parameters = pl := by simpa [fnEvParams] using hpl
        subst hpf
        show some (accessors.name (.functionDefinition f body) ++ "(" ++
            String.intercalate "," (f.parameters.parameters.map sigTypeString) ++ ")") = _
        rw [show f.parameters.parameters.map sigTypeString
            = f.parameters.parameters.map (fun a => (sigTypeOf a).getD "") from rfl, hmap]
    | eventDefinition e =>
        have hpe : e.parameters = pl := by simpa [fnEvParams] using hpl
        subst hpe
        show some (accessors.name (.eventDefinition e) ++ "(" ++
            String.intercalate "," (e.parameters.parameters.map sigTypeString) ++ ")") = _
        rw [show e.parameters.parameters.map sigTypeString
            = e.parameters.parameters.map (fun a => (sigTypeOf a).getD "") from rfl, hmap]
    | contractDefinition c ms => simp [fnEvParams] at hpl
    | errorDefinition e => simp [fnEvParams] at hpl
    | modifierDefinition m body => simp [fnEvParams] at hpl
    | variableDeclaration v => simp [fnEvParams] at hpl

/-- C4 witness: the sample transfer function's signature is
`transfer(address,uint256)`, and the signature is absent on a contract node. -/
theorem signature_spec_witness :
    accessors.signature transferFn = some "transfer(address,uint256)" ∧
      accessors.signature mockContract = none := by
  constructor
  · have hmain := (signature_spec transferFn).2 transferData.parameters
      ["address", "uint256"] rfl rfl
    rw [hmain]
    rfl
  · exact (signature_spec mockContract).1 rfl

/-- Three-way early-return conditional rendered as an ordered disjunction. -/
theorem ite_chain (a b c : Prop) [Decidable a] [Decidable b] [Decidable c] :
    ((if a then true else if b then true else if c then true else false) = true)
      ↔ (a ∨ b ∨ c) := by
  split_ifs <;> simp_all

/-- C3: on a contract, `hasPublicMembers` holds exactly when a public state
variable exists among the members, or an event exists anywhere in the subtree,
or a public or external function exists anywhere in the subtree — the three
conditions of the source's early returns, in that order. -/
theorem hasPublicMembers_spec (n : Node) (hn : n.nodeType = "ContractDefinition") :
    (accessors.hasPublicMembers n = true ↔
      ((∃ v ∈ n.nodes.filterMap Node.asVariable,
          v.stateVariable = true ∧ v.visibility = "public")
        ∨ findAll "EventDefinition" n ≠ []
        ∨ (∃ x ∈ findAll "FunctionDefinition" n,
            x.visibilityField = "public" ∨ x.visibilityField = "external"))) := by
  rcases n with ⟨c, ns⟩ | ⟨f, body⟩ | e | e | ⟨m, body⟩ | v
  case functionDefinition => simp [Node.nodeType] at hn
  case eventDefinition => simp [Node.nodeType] at hn
  case errorDefinition => simp [Node.nodeType] at hn
  case modifierDefinition => simp [Node.nodeType] at hn
  case variableDeclaration => simp [Node.nodeType] at hn
  case contractDefinition =>
    have hchain : accessors.hasPublicMembers (.contractDefinition c ns)
        = (if ((((ns.filter (fun x => x.nodeType == "VariableDeclaration")).filterMap
              Node.asVariable).filter (fun v => v.stateVariable)).filter
                (fun v => v.visibility == "public")).length > 0 then true
           else if (findAll "EventDefinition" (Node.contractDefinition c ns)).length > 0 then true
           else if ((findAll "FunctionDefinition" (Node.contractDefinition c ns)).filter
              (fun x => x.visibilityField == "public"
                || x.visibilityField == "external")).length > 0 then true
           else false) := rfl
    rw [hchain, ite_chain]
    refine or_congr ?_ (or_congr ?_ ?_)
    · rw [filterMap_asVariable_filter]
      simp only [gt_iff_lt, List.length_pos_iff_exists_mem, List.mem_filter, Node.nodes,
        beq_iff_eq]
      tauto
    · simp only [gt_iff_lt, List.length_pos]
    · simp only [gt_iff_lt, List.length_pos_iff_exists_mem, List.mem_filter,
        Bool.or_eq_true, beq_iff_eq]

/-- C3 witness: a contract whose only member is a declared event (no public
state variable, no public or external function) has public members; so has the
sample contract through its public state variable. -/
theorem hasPublicMembers_spec_witness :
    accessors.hasPublicMembers eventOnlyContract = true := by
  refine (hasPublicMembers_spec eventOnlyContract rfl).mpr ?_
  refine Or.inr (Or.inl ?_)
  rw [show findAll "EventDefinition" eventOnlyContract = [transferEvent] from rfl]
  simp

/-- Lookup in the concatenation of two records is lookup in the second with the
first as fallback — the shallow-merge law of the object spread. -/
theorem recordLookup_append (a b : List (String × Value)) (k : String) :
    recordLookup (a ++ b) k = (recordLookup b k).or (recordLookup a k) := by
  induction a with
  | nil => cases hb : recordLookup b k <;> simp [Option.or, hb, recordLookup]
  | cons e a ih =>
      have hcons : ∀ (r : List (String × Value)),
          recordLookup (e :: r) k =
            match recordLookup r k with
            | some v => some v
            | none => if e.1 = k then some e.2 else none := fun _ => rfl
      rw [List.cons_append, hcons, hcons, ih]
      cases hb : recordLookup b k <;> cases ha : recordLookup a k <;> simp [Option.or]

/-- Lookup misses every record whose keys avoid the requested one. -/
theorem recordLookup_eq_none (r : List (String × Value)) (k : String)
    (hk : k ∉ r.map Prod.fst) : recordLookup r k = none := by
  induction r with
  | nil => rfl
  | cons e r ih =>
      simp only [List.map_cons, List.mem_cons] at hk
      push_neg at hk
      have hcons : recordLookup (e :: r) k =
          match recordLookup r k with
          | some v => some v
          | none => if e.1 = k then some e.2 else none := rfl
      rw [hcons, ih hk.2]
      simp [Ne.symm hk.1]

/-- C1: `wrapWithAccessors` is, under lookup, the shallow merge of the item's
own fields followed by the accessor results, accessor results taking
precedence; every registry key is present (even when the accessor's value is
the explicit absent value) and resolves to that accessor's result, and a key
outside the registry resolves to the item's own field. -/
theorem wrapWithAccessors_spec (n : Node) (k : String) :
    recordLookup (wrapWithAccessors n) k
      = (recordLookup (accessorRecord n) k).or (recordLookup n.ownFields k) ∧
    (k ∈ accessorKeys → ∃ v, recordLookup (accessorRecord n) k = some v ∧
      recordLookup (wrapWithAccessors n) k = some v) ∧
    (k ∉ accessorKeys → recordLookup (wrapWithAccessors n) k = recordLookup n.ownFields k) := by
  have hmerge := recordLookup_append n.ownFields (accessorRecord n) k
  refine ⟨hmerge, ?_, ?_⟩
  · intro hk
    have hsome : ∃ v, recordLookup (accessorRecord n) k = some v := by
      fin_cases hk <;> exact ⟨_, rfl⟩
    obtain ⟨v, hv⟩ := hsome
    refine ⟨v, hv, ?_⟩
    rw [show recordLookup (wrapWithAccessors n) k
        = recordLookup (n.ownFields ++ accessorRecord n) k from rfl, recordLookup_append, hv]
    rfl
  · intro hk
    have hnone : recordLookup (accessorRecord n) k = none := by
      refine recordLookup_eq_none _ _ ?_
      rw [show (accessorRecord n).map Prod.fst = accessorKeys from rfl]
      exact hk
    rw [show recordLookup (wrapWithAccessors n) k
        = recordLookup (n.ownFields ++ accessorRecord n) k from rfl, recordLookup_append, hnone]
    rfl

/-- C1 witness: on the mock contract the registry key `visibility` is present in
the decorated record with the accessor's (absent) value, and the non-registry
key `nodeType` falls back to the node's own field. -/
theorem wrapWithAccessors_spec_witness :
    (∃ v, recordLookup (accessorRecord mockContract) "visibility" = some v ∧
      recordLookup (wrapWithAccessors mockContract) "visibility" = some v) ∧
    recordLookup (wrapWithAccessors mockContract) "nodeType"
      = recordLookup mockContract.ownFields "nodeType" :=
  ⟨(wrapWithAccessors_spec mockContract "visibility").2.1 (by decide),
   (wrapWithAccessors_spec mockContract "nodeType").2.2 (by decide)⟩

end Docgen
